import Mathlib

/-!
Verification of the `products` app of the Python_Django_Review repository
(`src/django-shop/products/models.py`) against its natural-language
specification.

The Django models are shallowly embedded: a database table is a
`List` of rows, a row is a Lean structure, timestamps are `Nat`
instants, the `DecimalField` price is an `Int`, and storage-level
constraint enforcement is a checking function returning `Except`.
SQL semantics that matter to the constraints are modelled explicitly:
`NULL` values are distinct from each other inside a unique index, and a
`CHECK` whose comparison involves `NULL` passes.
-/

/-- Status enum of `products.models.ProductStatus`
(`draft`, `published`, `archived`). -/
inductive ProductStatus where
  | draft
  | published
  | archived
deriving DecidableEq, Repr

/-- A row of the `Product` table (`products.models.Product`).
`pk` is `none` for an instance that has not been inserted yet,
`category` is the nullable foreign key, `published_at` the nullable
timestamp, and `price` models the decimal field. -/
structure Product where
  pk : Option Nat
  category : Option Nat
  name : String
  slug : String
  description : String
  price : Int
  is_active : Bool
  status : ProductStatus
  published_at : Option Nat
  created_at : Nat
  updated_at : Nat
deriving DecidableEq, Repr

/-- `\w` of Python's regexes restricted to ASCII: letters, digits, underscore. -/
def isWordChar (c : Char) : Bool :=
  c.isAlpha || c.isDigit || c == '_'

/-- `\s` of Python's regexes restricted to ASCII. -/
def isSpaceChar (c : Char) : Bool :=
  c == ' ' || c == '\t' || c == '\n' || c == '\r' || c.val == 11 || c.val == 12

/-- A character replaced by `-` in `django.utils.text.slugify`
(the class `[-\s]` of its second regex). -/
def isSepChar (c : Char) : Bool :=
  c == '-' || isSpaceChar c

/-- A character stripped from the ends by `slugify` (`.strip("-_")`). -/
def isStripChar (c : Char) : Bool :=
  c == '-' || c == '_'

/-- `re.sub(r"[-\s]+", "-", value)`: each maximal run of separator
characters collapses to a single hyphen.  The boolean argument records
whether the previous character belonged to such a run. -/
def collapseSep : List Char → Bool → List Char
  | [], _ => []
  | c :: rest, inRun =>
    if isSepChar c then
      if inRun then collapseSep rest true
      else '-' :: collapseSep rest true
    else c :: collapseSep rest false

/-- `value.strip("-_")`: drop strip-characters from both ends. -/
def stripEnds (l : List Char) : List Char :=
  ((l.dropWhile isStripChar).reverse.dropWhile isStripChar).reverse

/-- ASCII model of `django.utils.text.slugify` (the `allow_unicode=False`
branch): drop non-ASCII characters (the NFKD-normalise + ascii-ignore
encode step acts as the identity on ASCII), lower-case, delete every
character outside `[\w\s-]`, collapse runs of `[-\s]` to `-`, and strip
`-` and `_` from the ends. -/
def slugify (s : String) : String :=
  let ascii := s.data.filter (fun c => c.val < 128)
  let lowered := ascii.map Char.toLower
  let kept := lowered.filter (fun c => isWordChar c || isSpaceChar c || c == '-')
  ⟨stripEnds (collapseSep kept false)⟩

/-- Decimal digit characters of `n`, most significant first, computed with
explicit fuel (`fuel = n` is always enough).  This models the decimal
rendering of the counter in Python's `f"{base}-{i}"`. -/
def decDigits : Nat → Nat → List Char
  | 0, _ => []
  | fuel + 1, n =>
    if n = 0 then []
    else decDigits fuel (n / 10) ++ [Char.ofNat (48 + n % 10)]

/-- Decimal string of a natural number, as Python's `str`/f-string prints it. -/
def decRepr (n : Nat) : String :=
  if n = 0 then "0" else ⟨decDigits n n⟩

/-- The candidate slugs tried by `Product._ensure_slug`, in loop order:
candidate 1 is `base`, candidate `i` for `i ≥ 2` is `f"{base}-{i}"`. -/
def slugCandidate (base : String) (i : Nat) : String :=
  if i ≤ 1 then base else base ++ "-" ++ decRepr i

/-- `Product.objects.filter(slug=slug, is_active=True).exclude(pk=self.pk).exists()`:
some row of the table has exactly this slug, is active, and is not the
instance being saved. -/
def slugTaken (db : List Product) (p : Product) (s : String) : Bool :=
  db.any (fun q => q.slug == s && q.is_active && q.pk != p.pk)

/-- The `while` loop of `Product._ensure_slug`: starting from candidate
index `i`, return the first candidate that is not taken.  The fuel is an
upper bound on the number of iterations; `exists_free_slug` below shows
that `db.length + 1` steps always reach a free candidate, so with that
fuel this function computes exactly what the (unbounded) Python loop
computes. -/
def searchSlug (db : List Product) (p : Product) (base : String) : Nat → Nat → String
  | 0, i => slugCandidate base i
  | fuel + 1, i =>
    if slugTaken db p (slugCandidate base i) then searchSlug db p base fuel (i + 1)
    else slugCandidate base i

/-- `base = slugify(self.name) or "product"`. -/
def slugBase (name : String) : String :=
  if slugify name = "" then "product" else slugify name

/-- `Product._ensure_slug`: if the slug is already set or the name is
empty, do nothing (`if self.slug or not self.name: return`); otherwise
assign the first free candidate slug derived from the name. -/
def Product.ensureSlug (db : List Product) (p : Product) : Product :=
  if p.slug ≠ "" ∨ p.name = "" then p
  else { p with slug := searchSlug db p (slugBase p.name) (db.length + 1) 1 }

/-- The in-memory part of `Product.save`: run `_ensure_slug`, then stamp
`published_at` with the current time when the status is published and no
timestamp exists yet. -/
def Product.saveInstance (db : List Product) (p : Product) (now : Nat) : Product :=
  if (Product.ensureSlug db p).status = ProductStatus.published ∧
      (Product.ensureSlug db p).published_at = none then
    { Product.ensureSlug db p with published_at := some now }
  else Product.ensureSlug db p

/-- Storage-level rejection reasons for a `Product` write, named after the
constraints in `Product.Meta.constraints`. -/
inductive DbError where
  | priceNotGte0
  | nameNotUniqueActive
  | slugNotUniqueActive
deriving DecidableEq, Repr

/-- `LOWER` of SQL, restricted to ASCII, as produced by the `Lower(...)`
expressions in the unique constraints. -/
def lowerStr (s : String) : String :=
  ⟨s.data.map Char.toLower⟩

/-- The checks of `Product.Meta.constraints`, in declaration order:
`product_price_gte_0`, then the two partial unique indexes
`product_name_ci_unique_active` and `product_slug_ci_unique_active`,
whose `condition=Q(is_active=True)` means only active rows participate
on either side. -/
def productWriteError (db : List Product) (p : Product) : Option DbError :=
  if p.price < 0 then some DbError.priceNotGte0
  else if p.is_active &&
      db.any (fun q => q.is_active && q.pk != p.pk && lowerStr q.name == lowerStr p.name) then
    some DbError.nameNotUniqueActive
  else if p.is_active &&
      db.any (fun q => q.is_active && q.pk != p.pk && lowerStr q.slug == lowerStr p.slug) then
    some DbError.slugNotUniqueActive
  else none

/-- The row a successful INSERT of the instance persists: the in-memory
phase of `save`, with `created_at` set by `auto_now_add` and `updated_at`
by `auto_now`. -/
def Product.savedRow (db : List Product) (p : Product) (now : Nat) : Product :=
  { Product.saveInstance db p now with created_at := now, updated_at := now }

/-- `Product.save` for a new instance (an INSERT): the in-memory phase,
then the write, on which the database enforces the constraints. -/
def Product.save (db : List Product) (p : Product) (now : Nat) :
    Except DbError (Product × List Product) :=
  match productWriteError db (Product.savedRow db p now) with
  | some e => Except.error e
  | none => Except.ok (Product.savedRow db p now, db ++ [Product.savedRow db p now])

/-- The in-memory instance left by `publish` in the not-yet-published
case: the two assignments of `publish` (`status = PUBLISHED`,
`published_at = published_at or now`), then the in-memory phase of the
`save` call (`_ensure_slug` plus the timestamp guard) and the `auto_now`
refresh of `updated_at`. -/
def Product.publishInstance (db : List Product) (p : Product) (now : Nat) : Product :=
  { Product.saveInstance db
      { p with status := ProductStatus.published,
               published_at := some (p.published_at.getD now) } now
    with updated_at := now }

/-- `Product.publish`: no-op when already published; otherwise set the
status, keep an existing `published_at` (`self.published_at or
timezone.now()`), and save with
`update_fields=["status", "published_at", "updated_at"]` — the save still
runs `_ensure_slug` and the timestamp guard on the instance, but only the
three listed columns are written to the row. -/
def Product.publish (db : List Product) (p : Product) (now : Nat) :
    Product × List Product :=
  if p.status = ProductStatus.published then (p, db)
  else
    (Product.publishInstance db p now,
     db.map (fun q =>
       if q.pk = (Product.publishInstance db p now).pk then
         { q with status := (Product.publishInstance db p now).status,
                  published_at := (Product.publishInstance db p now).published_at,
                  updated_at := (Product.publishInstance db p now).updated_at }
       else q))

/-- `ProductQuerySet.active`: `self.filter(is_active=True)`. -/
def ProductQuerySet.active (db : List Product) : List Product :=
  db.filter (fun p => p.is_active)

/-- `ProductQuerySet.published`:
`self.filter(status=ProductStatus.PUBLISHED, is_active=True)`. -/
def ProductQuerySet.published (db : List Product) : List Product :=
  db.filter (fun p => p.status == ProductStatus.published && p.is_active)

/-- A row of the `Category` table (`products.models.Category`).
`parent` is the nullable self-referencing foreign key (a parent `pk`). -/
structure Category where
  pk : Nat
  name : String
  slug : String
  parent : Option Nat
deriving DecidableEq, Repr

/-- Storage-level rejection reasons for a `Category` write, named after
the constraints in `Category.Meta.constraints`. -/
inductive CatError where
  | slugNotUniquePerParent
  | selfParent
deriving DecidableEq, Repr

/-- Equality of the `parent` column as a unique index compares it:
SQL `NULL` is distinct from every value including `NULL`, so two rows
collide on this column only when both parents are the same non-null id. -/
def parentMatch : Option Nat → Option Nat → Bool
  | some a, some b => a == b
  | _, _ => false

/-- The checks of `Category.Meta.constraints`, in declaration order: the
unique index `cat_unique_slug_per_parent_ci` on `(Lower("slug"), parent)`,
then the check `cat_no_self_parent` (`~Q(parent=F("id"))`, which passes
when `parent` is `NULL` because the SQL comparison is unknown). -/
def insertCategory (db : List Category) (c : Category) :
    Except CatError (List Category) :=
  if db.any (fun d => d.pk != c.pk && parentMatch d.parent c.parent &&
      lowerStr d.slug == lowerStr c.slug) then
    Except.error CatError.slugNotUniquePerParent
  else if c.parent == some c.pk then Except.error CatError.selfParent
  else Except.ok (db ++ [c])

/-- A row of the `ProductTag` through table (`products.models.ProductTag`):
non-null foreign keys to `Product` and `Tag`, a weight
(`PositiveSmallIntegerField`, so a natural number), and a creation
timestamp. -/
structure ProductTag where
  product : Nat
  tag : Nat
  weight : Nat
  added_at : Nat
deriving DecidableEq, Repr

/-- Storage-level rejection reasons for a `ProductTag` write, named after
the constraints in `ProductTag.Meta.constraints`. -/
inductive PtError where
  | pairNotUnique
  | weightNotGte1
deriving DecidableEq, Repr

/-- The checks of `ProductTag.Meta.constraints`, in declaration order:
the unique constraint `product_tag_unique` on `(product, tag)`, then the
check `producttag_weight_gte_1` (`Q(weight__gte=1)`). -/
def insertProductTag (db : List ProductTag) (r : ProductTag) :
    Except PtError (List ProductTag) :=
  if db.any (fun s => s.product == r.product && s.tag == r.tag) then
    Except.error PtError.pairNotUnique
  else if r.weight < 1 then Except.error PtError.weightNotGte1
  else Except.ok (db ++ [r])

/-! ### Decimal rendering is injective on positive numbers -/

lemma slugify_red_mug : slugify "Red Mug" = "red-mug" := by decide

lemma decRepr_two : decRepr 2 = "2" := by decide

lemma slugCandidate_red_mug : slugCandidate "red-mug" 2 = "red-mug-2" := by decide

lemma toNat_ofNat_digit (d : Nat) (hd : d < 10) : (Char.ofNat (48 + d)).toNat = 48 + d := by
  interval_cases d <;> decide

lemma foldl_decDigits (fuel : Nat) : ∀ n a, n ≤ fuel →
    (decDigits fuel n).foldl (fun acc c => acc * 10 + (c.toNat - 48)) a
      = a * 10 ^ (decDigits fuel n).length + n := by
  induction fuel with
  | zero =>
    intro n a h
    interval_cases n
    simp [decDigits]
  | succ fuel ih =>
    intro n a h
    by_cases hn : n = 0
    · subst hn; simp [decDigits]
    · simp only [decDigits, if_neg hn]
      rw [List.foldl_append]
      have hdiv : n / 10 ≤ fuel := by
        have : n / 10 < n := Nat.div_lt_self (Nat.pos_of_ne_zero hn) (by norm_num)
        omega
      rw [ih (n / 10) a hdiv]
      simp only [List.foldl_cons, List.foldl_nil]
      rw [toNat_ofNat_digit (n % 10) (Nat.mod_lt n (by norm_num))]
      rw [List.length_append, List.length_cons, List.length_nil, pow_succ, ← mul_assoc]
      generalize a * 10 ^ (decDigits fuel (n / 10)).length = A
      omega

lemma decDigits_ne_nil {fuel n : Nat} (hf : 0 < fuel) (hn : 0 < n) :
    decDigits fuel n ≠ [] := by
  cases fuel with
  | zero => omega
  | succ fuel =>
    simp only [decDigits, if_neg (Nat.pos_iff_ne_zero.mp hn)]
    simp

lemma decRepr_inj {m n : Nat} (hm : 0 < m) (hn : 0 < n) (h : decRepr m = decRepr n) :
    m = n := by
  unfold decRepr at h
  rw [if_neg hm.ne', if_neg hn.ne'] at h
  have hd : decDigits m m = decDigits n n := congrArg String.data h
  have h1 := foldl_decDigits m m 0 le_rfl
  have h2 := foldl_decDigits n n 0 le_rfl
  rw [hd] at h1
  simp only [Nat.zero_mul, Nat.zero_add] at h1 h2
  omega

lemma decRepr_length_pos {n : Nat} (hn : 0 < n) : 0 < (decRepr n).length := by
  unfold decRepr
  rw [if_neg hn.ne']
  have := decDigits_ne_nil hn hn
  simpa [String.length] using List.length_pos.mpr this

/-! ### The candidate slugs `base`, `base-2`, `base-3`, … are pairwise distinct -/

lemma slugCandidate_inj {base : String} {i j : Nat} (hi : 0 < i) (hj : 0 < j)
    (h : slugCandidate base i = slugCandidate base j) : i = j := by
  unfold slugCandidate at h
  have hdash : ("-" : String).length = 1 := rfl
  by_cases h1 : i ≤ 1 <;> by_cases h2 : j ≤ 1
  · omega
  · exfalso
    rw [if_pos h1, if_neg h2] at h
    have hl := congrArg String.length h
    rw [String.length_append, String.length_append, hdash] at hl
    have := decRepr_length_pos (show 0 < j by omega)
    omega
  · exfalso
    rw [if_neg h1, if_pos h2] at h
    have hl := congrArg String.length h
    rw [String.length_append, String.length_append, hdash] at hl
    have := decRepr_length_pos (show 0 < i by omega)
    omega
  · rw [if_neg h1, if_neg h2] at h
    have hd := congrArg String.data h
    rw [String.data_append, String.data_append, String.data_append, String.data_append,
      List.append_assoc, List.append_assoc] at hd
    have hd2 := List.append_cancel_left hd
    have hd3 := List.append_cancel_left hd2
    exact decRepr_inj (by omega) (by omega) (String.ext hd3)

lemma slugCandidate_ne_empty {base : String} (hb : base ≠ "") (i : Nat) :
    slugCandidate base i ≠ "" := by
  unfold slugCandidate
  by_cases h : i ≤ 1
  · rw [if_pos h]; exact hb
  · rw [if_neg h]
    intro hcon
    have hl := congrArg String.length hcon
    have hdash : ("-" : String).length = 1 := rfl
    have hnil : ("" : String).length = 0 := rfl
    rw [String.length_append, String.length_append, hdash, hnil] at hl
    omega

lemma slugBase_ne_empty (name : String) : slugBase name ≠ "" := by
  unfold slugBase
  by_cases h : slugify name = ""
  · rw [if_pos h]; decide
  · rw [if_neg h]; exact h

/-! ### The collision check of `_ensure_slug` always finds a free candidate -/

/-- The slugs of the rows that participate in the collision check of
`_ensure_slug`: active rows other than the instance being saved. -/
def takenSlugs (db : List Product) (p : Product) : List String :=
  (db.filter (fun q => q.is_active && q.pk != p.pk)).map Product.slug

lemma slugTaken_iff {db : List Product} {p : Product} {s : String} :
    slugTaken db p s = true ↔ s ∈ takenSlugs db p := by
  simp only [slugTaken, takenSlugs, List.any_eq_true, List.mem_map, List.mem_filter,
    Bool.and_eq_true, beq_iff_eq, bne_iff_ne]
  constructor
  · rintro ⟨q, hq, ⟨hslug, hact⟩, hpk⟩
    exact ⟨q, ⟨hq, hact, hpk⟩, hslug⟩
  · rintro ⟨q, ⟨hq, hact, hpk⟩, hslug⟩
    exact ⟨q, hq, ⟨hslug, hact⟩, hpk⟩

lemma exists_free_slug (db : List Product) (p : Product) (base : String) :
    ∃ j, 0 < j ∧ j ≤ db.length + 2 ∧ slugTaken db p (slugCandidate base j) = false := by
  by_contra hcon
  push_neg at hcon
  have htaken : ∀ j ∈ Finset.Icc 1 (db.length + 2),
      slugCandidate base j ∈ (takenSlugs db p).toFinset := by
    intro j hj
    rw [Finset.mem_Icc] at hj
    rw [List.mem_toFinset, ← slugTaken_iff]
    have := hcon j (by omega) (by omega)
    simpa using this
  have hinj : Set.InjOn (fun j => slugCandidate base j) (Finset.Icc 1 (db.length + 2)) := by
    intro i hi j hj hij
    rw [Finset.coe_Icc, Set.mem_Icc] at hi hj
    exact slugCandidate_inj (by omega) (by omega) hij
  have hcard := Finset.card_le_card_of_injOn _ htaken hinj
  rw [Nat.card_Icc] at hcard
  have hc1 : (takenSlugs db p).toFinset.card ≤ (takenSlugs db p).length :=
    List.toFinset_card_le _
  have hc2 : (takenSlugs db p).length ≤ db.length := by
    unfold takenSlugs
    rw [List.length_map]
    exact List.length_filter_le _ _
  omega

/-! ### The search loop returns the first free candidate -/

lemma searchSlug_eq (db : List Product) (p : Product) (base : String) :
    ∀ fuel i j, i ≤ j → j ≤ i + fuel →
      (∀ k, i ≤ k → k < j → slugTaken db p (slugCandidate base k) = true) →
      slugTaken db p (slugCandidate base j) = false →
      searchSlug db p base fuel i = slugCandidate base j := by
  intro fuel
  induction fuel with
  | zero =>
    intro i j h1 h2 _ _
    have : i = j := by omega
    subst this
    rfl
  | succ fuel ih =>
    intro i j h1 h2 hmin hfree
    by_cases hi : slugTaken db p (slugCandidate base i) = true
    · have hij : i < j := by
        rcases Nat.lt_or_ge i j with h | h
        · exact h
        · exfalso
          have : i = j := by omega
          rw [this, hfree] at hi
          cases hi
      rw [searchSlug, if_pos hi]
      exact ih (i + 1) j (by omega) (by omega) (fun k hk1 hk2 => hmin k (by omega) hk2) hfree
    · have hj : j = i := by
        by_contra hne
        exact hi (hmin i le_rfl (by omega))
      rw [searchSlug, if_neg hi, hj]

/-! ### Specification of `_ensure_slug` in the blank-slug, non-empty-name case -/

lemma ensureSlug_spec (db : List Product) (p : Product)
    (h1 : p.slug = "") (h2 : p.name ≠ "") :
    ∃ j, 0 < j ∧
      (Product.ensureSlug db p).slug = slugCandidate (slugBase p.name) j ∧
      slugTaken db p (slugCandidate (slugBase p.name) j) = false ∧
      ∀ k, 0 < k → k < j → slugTaken db p (slugCandidate (slugBase p.name) k) = true := by
  have hex : ∃ j, 0 < j ∧ slugTaken db p (slugCandidate (slugBase p.name) j) = false := by
    obtain ⟨j0, hj0pos, _, hj0free⟩ := exists_free_slug db p (slugBase p.name)
    exact ⟨j0, hj0pos, hj0free⟩
  set j := Nat.find hex with hjdef
  obtain ⟨hjpos, hjfree⟩ := Nat.find_spec hex
  have hjle : j ≤ db.length + 2 := by
    obtain ⟨j0, hj0pos, hj0le, hj0free⟩ := exists_free_slug db p (slugBase p.name)
    exact le_trans (Nat.find_min' hex ⟨hj0pos, hj0free⟩) hj0le
  have hmin : ∀ k, 0 < k → k < j → slugTaken db p (slugCandidate (slugBase p.name) k) = true := by
    intro k hk1 hk2
    have := Nat.find_min hex hk2
    simp only [not_and] at this
    have := this hk1
    simpa using this
  refine ⟨j, hjpos, ?_, hjfree, hmin⟩
  unfold Product.ensureSlug
  rw [if_neg (by push_neg; exact ⟨h1, h2⟩)]
  exact searchSlug_eq db p (slugBase p.name) (db.length + 1) 1 j hjpos (by omega)
    (fun k hk1 hk2 => hmin k (by omega) hk2) hjfree

/-! ### Frame facts: which fields each operation can touch -/

lemma ensureSlug_frame (db : List Product) (p : Product) :
    (Product.ensureSlug db p).pk = p.pk ∧
    (Product.ensureSlug db p).category = p.category ∧
    (Product.ensureSlug db p).name = p.name ∧
    (Product.ensureSlug db p).description = p.description ∧
    (Product.ensureSlug db p).price = p.price ∧
    (Product.ensureSlug db p).is_active = p.is_active ∧
    (Product.ensureSlug db p).status = p.status ∧
    (Product.ensureSlug db p).published_at = p.published_at ∧
    (Product.ensureSlug db p).created_at = p.created_at ∧
    (Product.ensureSlug db p).updated_at = p.updated_at := by
  unfold Product.ensureSlug
  split <;> simp

lemma saveInstance_slug (db : List Product) (p : Product) (now : Nat) :
    (Product.saveInstance db p now).slug = (Product.ensureSlug db p).slug := by
  unfold Product.saveInstance
  split <;> rfl

lemma saveInstance_frame (db : List Product) (p : Product) (now : Nat) :
    (Product.saveInstance db p now).pk = p.pk ∧
    (Product.saveInstance db p now).category = p.category ∧
    (Product.saveInstance db p now).name = p.name ∧
    (Product.saveInstance db p now).description = p.description ∧
    (Product.saveInstance db p now).price = p.price ∧
    (Product.saveInstance db p now).is_active = p.is_active ∧
    (Product.saveInstance db p now).status = p.status ∧
    (Product.saveInstance db p now).created_at = p.created_at := by
  obtain ⟨hpk, hcat, hname, hdesc, hprice, hact, hstat, _, hcre, _⟩ := ensureSlug_frame db p
  unfold Product.saveInstance
  split <;> exact ⟨hpk, hcat, hname, hdesc, hprice, hact, hstat, hcre⟩

/-- C1: for a product with a blank slug and a non-empty name, save
assigns the first candidate among `base`, `base-2`, `base-3`, …
(with `base` the slugified name) that is not already used by another
active product, so after save the slug is non-empty and no other active
product in the table carries it; the instance a successful `save`
persists has that same slug. -/
theorem C1_slug_assignment (db : List Product) (p : Product) (now : Nat)
    (h1 : p.slug = "") (h2 : p.name ≠ "") :
    (∃ j, 0 < j ∧
      (Product.saveInstance db p now).slug = slugCandidate (slugBase p.name) j ∧
      slugTaken db p (slugCandidate (slugBase p.name) j) = false ∧
      ∀ k, 0 < k → k < j → slugTaken db p (slugCandidate (slugBase p.name) k) = true) ∧
    (Product.saveInstance db p now).slug ≠ "" ∧
    (∀ q ∈ db, q.is_active = true → q.pk ≠ p.pk →
      q.slug ≠ (Product.saveInstance db p now).slug) ∧
    (∀ p2 db2, Product.save db p now = Except.ok (p2, db2) →
      p2.slug = (Product.saveInstance db p now).slug) := by
  obtain ⟨j, hj, hslug, hfree, hmin⟩ := ensureSlug_spec db p h1 h2
  have hs : (Product.saveInstance db p now).slug = slugCandidate (slugBase p.name) j := by
    rw [saveInstance_slug]
    exact hslug
  refine ⟨⟨j, hj, hs, hfree, hmin⟩, ?_, ?_, ?_⟩
  · rw [hs]
    exact slugCandidate_ne_empty (slugBase_ne_empty p.name) j
  · intro q hq hact hpk hcon
    have htk : slugTaken db p (slugCandidate (slugBase p.name) j) = true := by
      rw [slugTaken_iff]
      unfold takenSlugs
      rw [List.mem_map]
      refine ⟨q, ?_, hcon.trans hs⟩
      rw [List.mem_filter]
      refine ⟨hq, ?_⟩
      simp [hact, hpk]
    rw [hfree] at htk
    cases htk
  · intro p2 db2 hok
    unfold Product.save at hok
    cases herr : productWriteError db (Product.savedRow db p now) <;> rw [herr] at hok
    · simp only [Except.ok.injEq, Prod.mk.injEq] at hok
      rw [← hok.1]
      rfl
    · cases hok

/-- The one persisted product of the concrete witness database: active,
with slug `red-mug`. -/
def redMugRow : Product :=
  { pk := some 1, category := none, name := "Red Mug", slug := "red-mug",
    description := "", price := 5, is_active := true,
    status := ProductStatus.draft, published_at := none,
    created_at := 0, updated_at := 0 }

/-- A new, not yet persisted product named `Red Mug` with a blank slug. -/
def newRedMug : Product :=
  { pk := none, category := none, name := "Red Mug", slug := "",
    description := "", price := 5, is_active := true,
    status := ProductStatus.draft, published_at := none,
    created_at := 0, updated_at := 0 }

/-- Witness for C1 at a concrete input: the slug `red-mug` is taken by
the active row, so the new product gets `red-mug-2`. -/
theorem C1_witness :
    newRedMug.slug = "" ∧ newRedMug.name ≠ "" ∧
    (Product.saveInstance [redMugRow] newRedMug 0).slug ≠ "" ∧
    (Product.saveInstance [redMugRow] newRedMug 0).slug = "red-mug-2" :=
  ⟨rfl, by decide, (C1_slug_assignment [redMugRow] newRedMug 0 rfl (by decide)).2.1,
    by decide⟩

/-! ### The publish transition -/

lemma saveInstance_published_at (db : List Product) (p : Product) (now : Nat) :
    (Product.saveInstance db p now).published_at =
      if p.status = ProductStatus.published ∧ p.published_at = none then some now
      else p.published_at := by
  obtain ⟨_, _, _, _, _, _, hstat, hpub, _, _⟩ := ensureSlug_frame db p
  unfold Product.saveInstance
  rw [hstat, hpub]
  split <;> simp [hpub]

lemma publishInstance_status (db : List Product) (p : Product) (now : Nat) :
    (Product.publishInstance db p now).status = ProductStatus.published := by
  have h := (saveInstance_frame db
    { p with status := ProductStatus.published,
             published_at := some (p.published_at.getD now) } now).2.2.2.2.2.2.1
  unfold Product.publishInstance
  exact h

lemma publishInstance_published_at (db : List Product) (p : Product) (now : Nat) :
    (Product.publishInstance db p now).published_at = some (p.published_at.getD now) := by
  unfold Product.publishInstance
  have h := saveInstance_published_at db
    { p with status := ProductStatus.published,
             published_at := some (p.published_at.getD now) } now
  rw [if_neg (by simp)] at h
  exact h

lemma publish_fst_status (db : List Product) (p : Product) (now : Nat) :
    (Product.publish db p now).1.status = ProductStatus.published := by
  unfold Product.publish
  split
  · next hp => exact hp
  · exact publishInstance_status db p now

/-- C2: publish when already published changes nothing; otherwise it sets
the status to published and sets `published_at` to the current time only
when it was null, keeping an existing timestamp; a second publish changes
nothing at all, so the timestamp of the first publish survives. -/
theorem C2_publish_transition (db : List Product) (p : Product) (now now2 : Nat) :
    (p.status = ProductStatus.published → Product.publish db p now = (p, db)) ∧
    (p.status ≠ ProductStatus.published →
      (Product.publish db p now).1.status = ProductStatus.published ∧
      (p.published_at = none → (Product.publish db p now).1.published_at = some now) ∧
      (∀ t, p.published_at = some t → (Product.publish db p now).1.published_at = some t)) ∧
    Product.publish (Product.publish db p now).2 (Product.publish db p now).1 now2 =
      Product.publish db p now := by
  refine ⟨?_, ?_, ?_⟩
  · intro hp
    unfold Product.publish
    rw [if_pos hp]
  · intro hp
    have h1 : (Product.publish db p now).1 = Product.publishInstance db p now := by
      unfold Product.publish
      rw [if_neg hp]
    refine ⟨publish_fst_status db p now, ?_, ?_⟩
    · intro hnone
      rw [h1, publishInstance_published_at, hnone]
      rfl
    · intro t ht
      rw [h1, publishInstance_published_at, ht]
      rfl
  · have hs := publish_fst_status db p now
    set r := Product.publish db p now with hr
    unfold Product.publish
    rw [if_pos hs]

/-- Witness for C2 at a concrete input: publishing a draft product with
no timestamp at time 5 stamps 5, and a second publish at time 9 changes
nothing. -/
theorem C2_witness :
    newRedMug.status ≠ ProductStatus.published ∧
    (Product.publish [] newRedMug 5).1.status = ProductStatus.published ∧
    (Product.publish [] newRedMug 5).1.published_at = some 5 ∧
    Product.publish (Product.publish [] newRedMug 5).2 (Product.publish [] newRedMug 5).1 9 =
      Product.publish [] newRedMug 5 := by
  have h := C2_publish_transition [] newRedMug 5 9
  exact ⟨by decide, (h.2.1 (by decide)).1, (h.2.1 (by decide)).2.1 rfl, h.2.2⟩

/-- The fields of a persisted product row that `publish` must leave
untouched: everything except `status`, `published_at`, `updated_at`. -/
def sameFrame (q q2 : Product) : Prop :=
  q2.pk = q.pk ∧ q2.category = q.category ∧ q2.name = q.name ∧
  q2.description = q.description ∧ q2.price = q.price ∧
  q2.is_active = q.is_active ∧ q2.slug = q.slug ∧ q2.created_at = q.created_at

/-- C9: `publish` writes at most `status`, `published_at`, `updated_at`;
row for row, every other persisted field is unchanged. -/
theorem C9_publish_frame (db : List Product) (p : Product) (now : Nat) :
    (Product.publish db p now).2.length = db.length ∧
    ∀ i (h1 : i < db.length) (h2 : i < (Product.publish db p now).2.length),
      sameFrame (db.get ⟨i, h1⟩) ((Product.publish db p now).2.get ⟨i, h2⟩) := by
  by_cases hp : p.status = ProductStatus.published
  · have hq : Product.publish db p now = (p, db) := by
      unfold Product.publish
      rw [if_pos hp]
    rw [hq]
    exact ⟨rfl, fun i h1 h2 => ⟨rfl, rfl, rfl, rfl, rfl, rfl, rfl, rfl⟩⟩
  · have hq : (Product.publish db p now).2 = db.map (fun q =>
        if q.pk = (Product.publishInstance db p now).pk then
          { q with status := (Product.publishInstance db p now).status,
                   published_at := (Product.publishInstance db p now).published_at,
                   updated_at := (Product.publishInstance db p now).updated_at }
        else q) := by
      unfold Product.publish
      rw [if_neg hp]
    rw [hq]
    refine ⟨List.length_map _ _, ?_⟩
    intro i h1 h2
    simp only [List.get_eq_getElem, List.getElem_map]
    split
    · exact ⟨rfl, rfl, rfl, rfl, rfl, rfl, rfl, rfl⟩
    · exact ⟨rfl, rfl, rfl, rfl, rfl, rfl, rfl, rfl⟩

/-- Witness for C9 at a concrete input: publishing the persisted draft
row changes nothing in its frame fields. -/
theorem C9_witness :
    (Product.publish [redMugRow] redMugRow 5).2.length = 1 ∧
    sameFrame ([redMugRow].get ⟨0, by decide⟩)
      ((Product.publish [redMugRow] redMugRow 5).2.get ⟨0, by decide⟩) := by
  have h := C9_publish_frame [redMugRow] redMugRow 5
  exact ⟨h.1, h.2 0 (by decide) (by decide)⟩

/-! ### Query sets -/

/-- C10: every product returned by `published()` has `status = published`
and `is_active = true`, so the result of `published()` is a subset of the
result of `active()`. -/
theorem C10_published_subset_active (db : List Product) :
    (∀ q ∈ ProductQuerySet.published db,
      q.status = ProductStatus.published ∧ q.is_active = true) ∧
    ProductQuerySet.published db ⊆ ProductQuerySet.active db := by
  constructor
  · intro q hq
    unfold ProductQuerySet.published at hq
    rw [List.mem_filter] at hq
    have h := hq.2
    simp only [Bool.and_eq_true, beq_iff_eq] at h
    exact h
  · intro q hq
    unfold ProductQuerySet.published at hq
    unfold ProductQuerySet.active
    rw [List.mem_filter] at hq
    rw [List.mem_filter]
    obtain ⟨h1, h2⟩ := hq
    simp only [Bool.and_eq_true, beq_iff_eq] at h2
    exact ⟨h1, h2.2⟩

/-- A published, active product used by concrete witnesses. -/
def pubMug : Product :=
  { pk := some 2, category := none, name := "Pub Mug", slug := "pub-mug",
    description := "", price := 3, is_active := true,
    status := ProductStatus.published, published_at := some 1,
    created_at := 0, updated_at := 0 }

/-- Witness for C10 at a concrete input. -/
theorem C10_witness :
    pubMug ∈ ProductQuerySet.published [redMugRow, pubMug] ∧
    pubMug.status = ProductStatus.published ∧ pubMug.is_active = true ∧
    pubMug ∈ ProductQuerySet.active [redMugRow, pubMug] := by
  have h := C10_published_subset_active [redMugRow, pubMug]
  have hm : pubMug ∈ ProductQuerySet.published [redMugRow, pubMug] := by decide
  exact ⟨hm, (h.1 pubMug hm).1, (h.1 pubMug hm).2, h.2 hm⟩

/-! ### Constraint behaviour of `Product.save` -/

lemma savedRow_fields (db : List Product) (p : Product) (now : Nat) :
    (Product.savedRow db p now).pk = p.pk ∧
    (Product.savedRow db p now).name = p.name ∧
    (Product.savedRow db p now).price = p.price ∧
    (Product.savedRow db p now).is_active = p.is_active := by
  obtain ⟨hpk, _, hname, _, hprice, hact, _, _⟩ := saveInstance_frame db p now
  exact ⟨hpk, hname, hprice, hact⟩

lemma save_eq_error (db : List Product) (p : Product) (now : Nat) (e : DbError)
    (h : productWriteError db (Product.savedRow db p now) = some e) :
    Product.save db p now = Except.error e := by
  unfold Product.save
  rw [h]

lemma save_eq_ok (db : List Product) (p : Product) (now : Nat)
    (h : productWriteError db (Product.savedRow db p now) = none) :
    Product.save db p now =
      Except.ok (Product.savedRow db p now, db ++ [Product.savedRow db p now]) := by
  unfold Product.save
  rw [h]

/-- C8: a write with a negative price is rejected at the storage level
(the `product_price_gte_0` check), and a successful save preserves the
invariant that every persisted row has a non-negative price. -/
theorem C8_price_nonneg (db : List Product) (p : Product) (now : Nat) :
    (p.price < 0 → Product.save db p now = Except.error DbError.priceNotGte0) ∧
    (∀ p2 db2, Product.save db p now = Except.ok (p2, db2) →
      (∀ q ∈ db, 0 ≤ q.price) → ∀ q ∈ db2, 0 ≤ q.price) := by
  constructor
  · intro hneg
    apply save_eq_error
    have hs : (Product.savedRow db p now).price < 0 := by
      rw [(savedRow_fields db p now).2.2.1]
      exact hneg
    unfold productWriteError
    rw [if_pos hs]
  · intro p2 db2 hok hinv
    unfold Product.save at hok
    cases herr : productWriteError db (Product.savedRow db p now) <;> rw [herr] at hok
    · simp only [Except.ok.injEq, Prod.mk.injEq] at hok
      have hprice : ¬(Product.savedRow db p now).price < 0 := by
        intro hlt
        unfold productWriteError at herr
        rw [if_pos hlt] at herr
        cases herr
      intro q hq
      rw [← hok.2] at hq
      rcases List.mem_append.mp hq with h | h
      · exact hinv q h
      · rw [List.mem_singleton] at h
        subst h
        omega
    · cases hok

/-- Witness for C8 at a concrete input: a product with price −1 is
rejected, and inserting a valid product preserves the invariant. -/
theorem C8_witness :
    ({ newRedMug with price := -1 } : Product).price < 0 ∧
    Product.save [] { newRedMug with price := -1 } 0 =
      Except.error DbError.priceNotGte0 := by
  have h := C8_price_nonneg [] { newRedMug with price := -1 } 0
  exact ⟨by decide, h.1 (by decide)⟩

/-- C4: when another active product has the same name up to case, save
fails with the `product_name_ci_unique_active` violation exactly when the
saved product is itself active; saving it inactive (with a valid price)
succeeds. -/
theorem C4_name_ci_unique_active (db : List Product) (p : Product) (now : Nat)
    (hdup : ∃ q ∈ db, q.is_active = true ∧ q.pk ≠ p.pk ∧ lowerStr q.name = lowerStr p.name)
    (hprice : 0 ≤ p.price) :
    (Product.save db p now = Except.error DbError.nameNotUniqueActive ↔ p.is_active = true) ∧
    (p.is_active = false → ∃ p2 db2, Product.save db p now = Except.ok (p2, db2)) := by
  obtain ⟨hspk, hsname, hsprice, hsact⟩ := savedRow_fields db p now
  have hpr : ¬(Product.savedRow db p now).price < 0 := by
    rw [hsprice]
    omega
  have hany : db.any (fun q => q.is_active && q.pk != (Product.savedRow db p now).pk &&
      lowerStr q.name == lowerStr (Product.savedRow db p now).name) = true := by
    rw [List.any_eq_true]
    obtain ⟨q, hq, hact, hpk, hname⟩ := hdup
    refine ⟨q, hq, ?_⟩
    rw [hspk, hsname]
    simp only [Bool.and_eq_true, bne_iff_ne, beq_iff_eq]
    exact ⟨⟨hact, hpk⟩, hname⟩
  constructor
  · constructor
    · intro herr
      by_contra hact
      have hact2 : p.is_active = false := by
        cases hh : p.is_active
        · rfl
        · exact absurd hh hact
      have hnone : productWriteError db (Product.savedRow db p now) = none := by
        unfold productWriteError
        rw [if_neg hpr, if_neg (by rw [hsact, hact2]; simp), if_neg (by rw [hsact, hact2]; simp)]
      rw [save_eq_ok db p now hnone] at herr
      cases herr
    · intro hact
      apply save_eq_error
      unfold productWriteError
      rw [if_neg hpr, if_pos (by rw [hsact, hact]; simpa using hany)]
  · intro hact
    have hnone : productWriteError db (Product.savedRow db p now) = none := by
      unfold productWriteError
      rw [if_neg hpr, if_neg (by rw [hsact, hact]; simp), if_neg (by rw [hsact, hact]; simp)]
    exact ⟨_, _, save_eq_ok db p now hnone⟩

/-- Witness for C4 at a concrete input: next to the active row named
`Red Mug`, saving an active `red mug` fails with the name-uniqueness
violation, and saving it inactive succeeds. -/
theorem C4_witness :
    Product.save [redMugRow] { newRedMug with name := "red mug" } 0 =
      Except.error DbError.nameNotUniqueActive ∧
    (Product.save [redMugRow] { newRedMug with name := "red mug", is_active := false } 0).isOk
      = true := by
  have h1 := C4_name_ci_unique_active [redMugRow] { newRedMug with name := "red mug" } 0
    ⟨redMugRow, by decide, by decide, by decide⟩ (by decide)
  have h2 := C4_name_ci_unique_active [redMugRow]
    { newRedMug with name := "red mug", is_active := false } 0
    ⟨redMugRow, by decide, by decide, by decide⟩ (by decide)
  obtain ⟨p2, db2, hok⟩ := h2.2 (by decide)
  refine ⟨h1.1.mpr (by decide), ?_⟩
  rw [hok]
  rfl

/-! ### The empty-name guard of `_ensure_slug` (claim C3) -/

/-- A product with an empty name and a blank slug. -/
def namelessProduct : Product :=
  { pk := none, category := none, name := "", slug := "",
    description := "", price := 0, is_active := true,
    status := ProductStatus.draft, published_at := none,
    created_at := 0, updated_at := 0 }

/-- Counterexample to C3 as stated: saving a product whose name is empty
and whose slug is blank leaves the slug blank.  The guard
`if self.slug or not self.name: return` of `_ensure_slug` returns on the
empty name before the `"product"` fallback is ever reached. -/
theorem C3_counterexample :
    namelessProduct.name = "" ∧ namelessProduct.slug = "" ∧
    (Product.saveInstance [] namelessProduct 0).slug = "" :=
  ⟨rfl, rfl, by decide⟩

/-- C3 amended: saving a product with an empty name and a blank slug
leaves the slug blank; the fixed default base `"product"` (possibly with
a numeric suffix) is used instead exactly when the name is non-empty but
slugifies to the empty string. -/
theorem C3_amended_fallback (db : List Product) (p : Product) (now : Nat)
    (hslug : p.slug = "") :
    (p.name = "" → (Product.saveInstance db p now).slug = "") ∧
    (p.name ≠ "" → slugify p.name = "" →
      ∃ j, 0 < j ∧
        (Product.saveInstance db p now).slug = slugCandidate "product" j ∧
        slugTaken db p (slugCandidate "product" j) = false ∧
        ∀ k, 0 < k → k < j → slugTaken db p (slugCandidate "product" k) = true) := by
  constructor
  · intro hname
    rw [saveInstance_slug]
    unfold Product.ensureSlug
    rw [if_pos (Or.inr hname)]
    exact hslug
  · intro hname hsfy
    have hbase : slugBase p.name = "product" := by
      unfold slugBase
      rw [if_pos hsfy]
    obtain ⟨j, hj, hs, hfree, hmin⟩ := ensureSlug_spec db p hslug hname
    rw [hbase] at hs hfree hmin
    refine ⟨j, hj, ?_, hfree, hmin⟩
    rw [saveInstance_slug]
    exact hs

/-- A product whose name has no alphanumeric characters, so that it
slugifies to the empty string. -/
def punctProduct : Product := { namelessProduct with name := "!!!" }

/-- Witness for the amended C3 at a concrete input: the name `!!!`
slugifies to the empty string and the slug becomes `product`. -/
theorem C3_witness :
    punctProduct.slug = "" ∧ punctProduct.name ≠ "" ∧ slugify punctProduct.name = "" ∧
    (Product.saveInstance [] punctProduct 0).slug = "product" := by
  refine ⟨rfl, by decide, by decide, ?_⟩
  obtain ⟨j, hj, hs, hfree, hmin⟩ :=
    (C3_amended_fallback [] punctProduct 0 rfl).2 (by decide) (by decide)
  have hj1 : j = 1 := by
    by_contra hne
    have hlt : (1 : Nat) < j := by omega
    have := hmin 1 (by omega) hlt
    simp [slugTaken] at this
  rw [hs, hj1]
  rfl

/-! ### Category slug uniqueness per parent (claim C5) -/

/-- A root category with slug `shoes`. -/
def shoesRoot : Category := { pk := 1, name := "Shoes", slug := "shoes", parent := none }

/-- A second root category whose slug differs only in case. -/
def shoesRoot2 : Category := { pk := 2, name := "Shoes again", slug := "Shoes", parent := none }

/-- Counterexample to C5 as stated: two distinct root categories (parent
`NULL`) with case-insensitively equal slugs are both accepted, because
the unique index on `(Lower("slug"), parent)` treats `NULL` parents as
distinct, so rows with no parent never collide in it. -/
theorem C5_counterexample :
    insertCategory [] shoesRoot = Except.ok [shoesRoot] ∧
    insertCategory [shoesRoot] shoesRoot2 = Except.ok [shoesRoot, shoesRoot2] ∧
    shoesRoot.pk ≠ shoesRoot2.pk ∧
    shoesRoot.parent = shoesRoot2.parent ∧
    lowerStr shoesRoot.slug = lowerStr shoesRoot2.slug :=
  ⟨rfl, rfl, by decide, rfl, by decide⟩

/-- C5 amended: any two distinct persisted Category rows with the same
NON-NULL parent have case-insensitively different slugs; rows with no
parent are exempt because SQL unique indexes treat NULL as distinct. -/
theorem C5_amended_slug_per_parent (db : List Category) (c : Category) (db2 : List Category)
    (hinv : ∀ c1 ∈ db, ∀ c2 ∈ db, c1.pk ≠ c2.pk → c1.parent = c2.parent →
      c1.parent ≠ none → lowerStr c1.slug ≠ lowerStr c2.slug)
    (hok : insertCategory db c = Except.ok db2) :
    ∀ c1 ∈ db2, ∀ c2 ∈ db2, c1.pk ≠ c2.pk → c1.parent = c2.parent →
      c1.parent ≠ none → lowerStr c1.slug ≠ lowerStr c2.slug := by
  unfold insertCategory at hok
  by_cases hclash : (db.any fun d => d.pk != c.pk && parentMatch d.parent c.parent &&
      lowerStr d.slug == lowerStr c.slug) = true
  · rw [if_pos hclash] at hok
    cases hok
  · rw [if_neg hclash] at hok
    by_cases hself : (c.parent == some c.pk) = true
    · rw [if_pos hself] at hok
      cases hok
    · rw [if_neg hself] at hok
      simp only [Except.ok.injEq] at hok
      subst hok
      have hnoc : ∀ d ∈ db, d.pk ≠ c.pk → d.parent = c.parent → d.parent ≠ none →
          lowerStr d.slug ≠ lowerStr c.slug := by
        intro d hd hpk hpar hnn hcon
        apply hclash
        rw [List.any_eq_true]
        refine ⟨d, hd, ?_⟩
        simp only [Bool.and_eq_true, bne_iff_ne, beq_iff_eq]
        refine ⟨⟨hpk, ?_⟩, hcon⟩
        cases hdp : d.parent with
        | none => exact absurd hdp hnn
        | some k =>
          rw [hpar] at hdp
          rw [hdp]
          simp [parentMatch]
      intro c1 hc1 c2 hc2 hpk hpar hnn
      rcases List.mem_append.mp hc1 with h1 | h1 <;> rcases List.mem_append.mp hc2 with h2 | h2
      · exact hinv c1 h1 c2 h2 hpk hpar hnn
      · rw [List.mem_singleton] at h2
        subst h2
        exact hnoc c1 h1 hpk hpar hnn
      · rw [List.mem_singleton] at h1
        subst h1
        intro hcon
        have hnn2 : c2.parent ≠ none := by
          rw [← hpar]
          exact hnn
        exact hnoc c2 h2 (Ne.symm hpk) hpar.symm hnn2 hcon.symm
      · rw [List.mem_singleton] at h1 h2
        subst h1
        subst h2
        exact absurd rfl hpk

/-- A root category used as a concrete parent. -/
def catParent : Category := { pk := 1, name := "Root", slug := "root", parent := none }

/-- A child of `catParent`. -/
def childA : Category := { pk := 2, name := "A", slug := "a", parent := some 1 }

/-- A second child of `catParent` with a different slug. -/
def childB : Category := { pk := 3, name := "B", slug := "b", parent := some 1 }

/-- Witness for the amended C5 at a concrete input. -/
theorem C5_witness :
    insertCategory [catParent, childA] childB = Except.ok [catParent, childA, childB] ∧
    lowerStr childA.slug ≠ lowerStr childB.slug := by
  have h := C5_amended_slug_per_parent [catParent, childA] childB [catParent, childA, childB]
    (by decide) rfl
  exact ⟨rfl, h childA (by decide) childB (by decide) (by decide) rfl (by decide)⟩

/-! ### ProductTag constraints (claim C6) -/

/-- C6: inserting a `ProductTag` with weight 0 fails, inserting a
duplicate (product, tag) pair fails with the `product_tag_unique`
violation, and a successful insert preserves the invariant that all rows
have weight ≥ 1 and pairwise distinct (product, tag) pairs. -/
theorem C6_producttag_constraints (db : List ProductTag) (r : ProductTag) :
    (r.weight = 0 → ∃ e, insertProductTag db r = Except.error e) ∧
    ((∃ s ∈ db, s.product = r.product ∧ s.tag = r.tag) →
      insertProductTag db r = Except.error PtError.pairNotUnique) ∧
    (∀ db2, insertProductTag db r = Except.ok db2 →
      (∀ s ∈ db, 1 ≤ s.weight) →
      List.Pairwise (fun a b => ¬(a.product = b.product ∧ a.tag = b.tag)) db →
      (∀ s ∈ db2, 1 ≤ s.weight) ∧
      List.Pairwise (fun a b => ¬(a.product = b.product ∧ a.tag = b.tag)) db2) := by
  refine ⟨?_, ?_, ?_⟩
  · intro hw
    unfold insertProductTag
    by_cases hdup : (db.any fun s => s.product == r.product && s.tag == r.tag) = true
    · rw [if_pos hdup]
      exact ⟨PtError.pairNotUnique, rfl⟩
    · rw [if_neg hdup, if_pos (by omega)]
      exact ⟨PtError.weightNotGte1, rfl⟩
  · intro hdup
    unfold insertProductTag
    have hc : (db.any fun s => s.product == r.product && s.tag == r.tag) = true := by
      rw [List.any_eq_true]
      obtain ⟨s, hs, h1, h2⟩ := hdup
      refine ⟨s, hs, ?_⟩
      simp only [Bool.and_eq_true, beq_iff_eq]
      exact ⟨h1, h2⟩
    rw [if_pos hc]
  · intro db2 hok hw hpair
    unfold insertProductTag at hok
    by_cases hdup : (db.any fun s => s.product == r.product && s.tag == r.tag) = true
    · rw [if_pos hdup] at hok
      cases hok
    · rw [if_neg hdup] at hok
      by_cases hw0 : r.weight < 1
      · rw [if_pos hw0] at hok
        cases hok
      · rw [if_neg hw0] at hok
        simp only [Except.ok.injEq] at hok
        subst hok
        constructor
        · intro s hs
          rcases List.mem_append.mp hs with h | h
          · exact hw s h
          · rw [List.mem_singleton] at h
            subst h
            omega
        · rw [List.pairwise_append]
          refine ⟨hpair, List.pairwise_singleton _ _, ?_⟩
          intro a ha b hb
          rw [List.mem_singleton] at hb
          subst hb
          intro hcon
          apply hdup
          rw [List.any_eq_true]
          refine ⟨a, ha, ?_⟩
          simp only [Bool.and_eq_true, beq_iff_eq]
          exact hcon

/-- A persisted join row. -/
def pt11 : ProductTag := { product := 1, tag := 1, weight := 1, added_at := 0 }

/-- A duplicate of the (1, 1) pair. -/
def pt11dup : ProductTag := { product := 1, tag := 1, weight := 3, added_at := 1 }

/-- A join row with weight 0. -/
def pt12zero : ProductTag := { product := 1, tag := 2, weight := 0, added_at := 1 }

/-- A valid new join row. -/
def pt12 : ProductTag := { product := 1, tag := 2, weight := 2, added_at := 1 }

/-- Witness for C6 at concrete inputs: the duplicate pair and the
zero weight are rejected, the valid row is accepted. -/
theorem C6_witness :
    insertProductTag [pt11] pt11dup = Except.error PtError.pairNotUnique ∧
    insertProductTag [pt11] pt12zero = Except.error PtError.weightNotGte1 ∧
    insertProductTag [pt11] pt12 = Except.ok [pt11, pt12] := by
  have h := (C6_producttag_constraints [pt11] pt11dup).2.1 ⟨pt11, by decide, rfl, rfl⟩
  exact ⟨h, rfl, rfl⟩

/-! ### No self-parenting category (claim C7) -/

/-- C7: a category write whose parent equals its own id is rejected, and
a successful insert preserves the invariant that every persisted row has
a null parent or a parent id different from its own id. -/
theorem C7_no_self_parent (db : List Category) (c : Category) :
    (c.parent = some c.pk → ∃ e, insertCategory db c = Except.error e) ∧
    (∀ db2, insertCategory db c = Except.ok db2 →
      (∀ d ∈ db, d.parent = none ∨ d.parent ≠ some d.pk) →
      ∀ d ∈ db2, d.parent = none ∨ d.parent ≠ some d.pk) := by
  constructor
  · intro hself
    unfold insertCategory
    by_cases hclash : (db.any fun d => d.pk != c.pk && parentMatch d.parent c.parent &&
        lowerStr d.slug == lowerStr c.slug) = true
    · rw [if_pos hclash]
      exact ⟨CatError.slugNotUniquePerParent, rfl⟩
    · rw [if_neg hclash, if_pos (by rw [beq_iff_eq]; exact hself)]
      exact ⟨CatError.selfParent, rfl⟩
  · intro db2 hok hinv
    unfold insertCategory at hok
    by_cases hclash : (db.any fun d => d.pk != c.pk && parentMatch d.parent c.parent &&
        lowerStr d.slug == lowerStr c.slug) = true
    · rw [if_pos hclash] at hok
      cases hok
    · rw [if_neg hclash] at hok
      by_cases hself : (c.parent == some c.pk) = true
      · rw [if_pos hself] at hok
        cases hok
      · rw [if_neg hself] at hok
        simp only [Except.ok.injEq] at hok
        subst hok
        intro d hd
        rcases List.mem_append.mp hd with h | h
        · exact hinv d h
        · rw [List.mem_singleton] at h
          subst h
          rw [beq_iff_eq] at hself
          exact Or.inr hself

/-- A category that is its own parent. -/
def selfCat : Category := { pk := 5, name := "Loop", slug := "loop", parent := some 5 }

/-- Witness for C7 at concrete inputs: the self-parenting write is
rejected, and an accepted insert satisfies the invariant. -/
theorem C7_witness :
    insertCategory [] selfCat = Except.error CatError.selfParent ∧
    (catParent.parent = none ∨ catParent.parent ≠ some catParent.pk) := by
  have h1 := (C7_no_self_parent [] selfCat).1 rfl
  have h2 := (C7_no_self_parent [] catParent).2 [catParent] rfl
    (fun d hd => by cases hd) catParent (by decide)
  exact ⟨rfl, h2⟩
